import Mathlib

/-!
Verification of the ETL utility in `Project.py` (functions `load_csv`,
`save_as_csv`, `save_to_sqlite`, `print_summary`, and the column
transformation, source dispatch and output-format dispatch inside
`etl_processor`).

A Python dict with string keys is embedded as an insertion-ordered
association list `Record α = List (String × α)`; Python dicts keep
insertion order and have no duplicate keys, so association lists with
`Nodup` keys model them exactly.  Fallible Python operations (subscript,
attribute access) are embedded in `Except PyErr`.
-/

namespace Project

/-- A Python dict with string keys, as an insertion-ordered association
list.  Records produced by `csv.DictReader` or by JSON objects have no
duplicate keys, which theorems state as `(row.map Prod.fst).Nodup`. -/
abbrev Record (α : Type) := List (String × α)

/-- Python `row[k]` as a total lookup: the value at the first entry whose
key is `k`, if any. -/
def dictGet {α : Type} : Record α → String → Option α
  | [], _ => none
  | kv :: rest, k => if kv.1 = k then some kv.2 else dictGet rest k

/-- Python `row[k] = v` on a dict: an existing key keeps its position and
gets the new value; a new key is appended at the end (insertion order). -/
def dictSet {α : Type} : Record α → String → α → Record α
  | [], k, v => [(k, v)]
  | kv :: rest, k, v =>
      if kv.1 = k then (k, v) :: rest else kv :: dictSet rest k v

/-- Outcome of `save_to_sqlite`: the column names of the created table
and the value tuples bound to the INSERT placeholders, in order. -/
structure SqliteSaveResult where
  columns : List String
  rows : List (List String)
deriving DecidableEq

/-- `save_to_sqlite` (lines 69-87): the table gets one TEXT column per
key of `data[0]`; each INSERT binds `list(row.values())` — the values of
that record in the record's own insertion order — positionally to the
placeholders.  On empty data `data[0]` raises IndexError, caught by the
handler, so nothing is created or inserted: `none`. -/
def save_to_sqlite (data : List (Record String)) : Option SqliteSaveResult :=
  match data with
  | [] => none
  | d0 :: _ =>
      some { columns := d0.map Prod.fst
             rows := data.map (fun r => r.map Prod.snd) }

/-- Python `s.startswith(p)`, at the character level so that the kernel
can evaluate it on literals. -/
def pyStartsWith (s p : String) : Bool :=
  p.data.isPrefixOf s.data

/-- Characters Python `str.strip()` removes (ASCII whitespace). -/
def isSpaceChar (c : Char) : Bool :=
  c = ' ' || c = '\t' || c = '\n' || c = '\r'

/-- Python `s.strip()`: leading and trailing whitespace removed. -/
def pyStrip (s : String) : String :=
  String.mk (((s.data.dropWhile isSpaceChar).reverse.dropWhile isSpaceChar).reverse)

/-- Python `s.lower()` (ASCII case folding, which covers the selectors
the dispatch compares against). -/
def pyLower (s : String) : String :=
  String.mk (s.data.map Char.toLower)

/-- The three branches of step 1 of `etl_processor`. -/
inductive SourceBranch : Type
  | api
  | remoteUrl
  | localFile
deriving DecidableEq

/-- Source dispatch of `etl_processor` (lines 134-160): `is_api` wins,
then any `input_source` whose text starts with "http" goes to the
remote-download branch, and only the remainder is treated as a local
path. -/
def source_branch (input_source : String) (is_api : Bool) : SourceBranch :=
  if is_api then SourceBranch.api
  else if pyStartsWith input_source "http" then SourceBranch.remoteUrl
  else SourceBranch.localFile

/-- Observable effects of steps 5 and 6 of `etl_processor`. -/
inductive SinkEffect : Type
  | savedCsv (dest : String)
  | savedJson (dest : String)
  | savedSqlite (dest : String) (table : String)
  | printedUnsupported
  | postSummary
deriving DecidableEq

/-- Steps 4-6 of `etl_processor` (lines 184-204): the output format read
from the prompt is stripped and lowercased, then dispatched; csv, json
and sqlite fill in a default destination when none was given, invoke the
persister and then the post-processing summary; anything else prints
"Unsupported output format." and returns at once. -/
def output_step (rawChoice : String) (save_destination : Option String) :
    List SinkEffect :=
  let fmt := pyLower (pyStrip rawChoice)
  if fmt = "csv" then
    [SinkEffect.savedCsv (save_destination.getD "output_data.csv"),
      SinkEffect.postSummary]
  else if fmt = "json" then
    [SinkEffect.savedJson (save_destination.getD "output_data.json"),
      SinkEffect.postSummary]
  else if fmt = "sqlite" then
    [SinkEffect.savedSqlite (save_destination.getD "output_data.db")
        "processed_data",
      SinkEffect.postSummary]
  else [SinkEffect.printedUnsupported]

/-- Python exception kinds that the embedded fragments can raise. -/
inductive PyErr : Type
  | keyError
  | typeError
  | attributeError
  | indexError
deriving DecidableEq

/-- Effectful map over a list in `Except`, mirroring how a Python
comprehension or generator stops at the first raised exception. -/
def mapME {ε α β : Type} (f : α → Except ε β) : List α → Except ε (List β)
  | [] => Except.ok []
  | a :: rest =>
      match f a with
      | Except.error e => Except.error e
      | Except.ok b =>
          match mapME f rest with
          | Except.error e => Except.error e
          | Except.ok bs => Except.ok (b :: bs)

/-- A Python value as produced by `json.load` or `response.json()` and
handed to the summarizer: None, strings, numbers, lists, and string-keyed
dicts. -/
inductive PyValue : Type
  | none : PyValue
  | str : String → PyValue
  | int : Int → PyValue
  | list : List PyValue → PyValue
  | dict : List (String × PyValue) → PyValue

/-- Python `data is None`. -/
def isNoneVal : PyValue → Bool
  | PyValue.none => true
  | _ => false

/-- Whether a value is a Python dict. -/
def isDictVal : PyValue → Bool
  | PyValue.dict _ => true
  | _ => false

/-- Python `len(data)`: defined for strings, lists and dicts, a TypeError
elsewhere. -/
def pyLen : PyValue → Except PyErr Nat
  | PyValue.str s => Except.ok s.data.length
  | PyValue.list l => Except.ok l.length
  | PyValue.dict d => Except.ok d.length
  | _ => Except.error PyErr.typeError

/-- Python `data[0]`: first element of a list or string; subscripting a
dict with the int key 0 raises KeyError (its keys are strings);
unsubscriptable values raise TypeError. -/
def pyGetItem0 : PyValue → Except PyErr PyValue
  | PyValue.list [] => Except.error PyErr.indexError
  | PyValue.list (x :: _) => Except.ok x
  | PyValue.str s =>
      match s.data with
      | [] => Except.error PyErr.indexError
      | c :: _ => Except.ok (PyValue.str (String.mk [c]))
  | PyValue.dict _ => Except.error PyErr.keyError
  | _ => Except.error PyErr.typeError

/-- Python `v.keys()`: a dict method; any other value raises
AttributeError. -/
def pyKeys : PyValue → Except PyErr (List String)
  | PyValue.dict d => Except.ok (d.map Prod.fst)
  | _ => Except.error PyErr.attributeError

/-- Python `v.items()`: a dict method; any other value raises
AttributeError. -/
def pyItems : PyValue → Except PyErr (Record PyValue)
  | PyValue.dict d => Except.ok d
  | _ => Except.error PyErr.attributeError

/-- Python `data[:3]` followed by iteration: the first three elements of
a list, the first three characters of a string; a dict is not
sliceable. -/
def pySample : PyValue → Except PyErr (List PyValue)
  | PyValue.list l => Except.ok (l.take 3)
  | PyValue.str s =>
      Except.ok ((s.data.take 3).map (fun c => PyValue.str (String.mk [c])))
  | _ => Except.error PyErr.typeError

/-- Python `for row in data`: a list yields its elements, a string its
characters, a dict its keys; other values are not iterable. -/
def pyIterate : PyValue → Except PyErr (List PyValue)
  | PyValue.list l => Except.ok l
  | PyValue.str s => Except.ok (s.data.map (fun c => PyValue.str (String.mk [c])))
  | PyValue.dict d => Except.ok (d.map (fun kv => PyValue.str kv.1))
  | _ => Except.error PyErr.typeError

/-- Python `row.get(col)`: a dict method returning None for an absent
key; on any non-dict row the attribute access raises AttributeError. -/
def pyDictGetMethod : PyValue → String → Except PyErr PyValue
  | PyValue.dict d, k => Except.ok ((dictGet d k).getD PyValue.none)
  | _, _ => Except.error PyErr.attributeError

/-- Python `type(value).__name__` for the embedded values. -/
def typeName : PyValue → String
  | PyValue.none => "NoneType"
  | PyValue.str _ => "str"
  | PyValue.int _ => "int"
  | PyValue.list _ => "list"
  | PyValue.dict _ => "dict"

/-- The missing-value test of line 115:
`row.get(col) is None or row.get(col) == ""`. -/
def isMissingVal : PyValue → Bool
  | PyValue.none => true
  | PyValue.str s => s.data.isEmpty
  | _ => false

/-- One printed line of `print_summary`, with the formatted data carried
structurally instead of as interpolated text. -/
inductive SummaryLine : Type
  | noData (title : String)
  | counts (title : String) (records : Nat) (columns : Nat)
  | columnType (name : String) (tyName : String)
  | sampleRecord (index : Nat) (row : PyValue)
  | missingValues (name : String) (count : Nat)

/-- The per-column missing-value count of lines 114-117:
`sum(1 for row in data if row.get(col) is None or row.get(col) == "")`;
the generator raises as soon as a row without `.get` is reached. -/
def missingCount (rows : List PyValue) (col : String) : Except PyErr Nat :=
  match mapME (fun row => pyDictGetMethod row col) rows with
  | Except.error e => Except.error e
  | Except.ok vs => Except.ok (vs.filter isMissingVal).length

/-- `print_summary` (lines 91-119) over an arbitrary loaded value.
`data is None or len(data) == 0` prints the no-data line and returns;
otherwise the function subscripts `data[0]`, reads `.keys()` and
`.items()` of that first element, slices `data[:3]` for the sample, and
counts per-column missing values with `row.get(col)` over all rows.
Each of these operations raises on a value of the wrong shape, and the
function installs no handler, so a raised exception propagates. -/
def print_summary (data : PyValue) (title : String) :
    Except PyErr (List SummaryLine) :=
  if isNoneVal data then Except.ok [SummaryLine.noData title]
  else
    match pyLen data with
    | Except.error e => Except.error e
    | Except.ok n =>
        if n = 0 then Except.ok [SummaryLine.noData title]
        else
          match pyGetItem0 data with
          | Except.error e => Except.error e
          | Except.ok first =>
              match pyKeys first with
              | Except.error e => Except.error e
              | Except.ok keys =>
                  match pyItems first with
                  | Except.error e => Except.error e
                  | Except.ok items =>
                      match pySample data with
                      | Except.error e => Except.error e
                      | Except.ok sample =>
                          match pyIterate data with
                          | Except.error e => Except.error e
                          | Except.ok rows =>
                              match mapME (missingCount rows) keys with
                              | Except.error e => Except.error e
                              | Except.ok miss =>
                                  Except.ok
                                    ([SummaryLine.counts title n keys.length]
                                      ++ items.map (fun kv =>
                                          SummaryLine.columnType kv.1 (typeName kv.2))
                                      ++ sample.enum.map (fun p =>
                                          SummaryLine.sampleRecord (p.1 + 1) p.2)
                                      ++ (keys.zip miss).map (fun p =>
                                          SummaryLine.missingValues p.1 p.2))

/-- Column removal from `etl_processor` line 171, as the pure function it
computes: `\x7bkey: row[key] for key in row if key not in remove_columns\x7d`
keeps exactly the entries whose key is not in the removal list. -/
def removeCols {α : Type} (rc : List String) (row : Record α) : Record α :=
  row.filter (fun kv => !(rc.contains kv.1))

/-- The same dict comprehension with the `row[key]` subscript made
explicit, so that the (un)reachability of its `KeyError` handler
(lines 172-173) can be stated: each iterated key is looked up in `row`
and a missing key raises `KeyError`. -/
def removeColsChecked {α : Type} (rc : List String) (row : Record α) :
    Except PyErr (Record α) :=
  mapME
    (fun k =>
      match dictGet row k with
      | some v => Except.ok (k, v)
      | none => Except.error PyErr.keyError)
    ((row.map Prod.fst).filter (fun k => !(rc.contains k)))

/-- Column addition from `etl_processor` lines 177-179: for each
`(col, val)` of the addition mapping in order, `row[col] = val`. -/
def addCols {α : Type} (ac : Record α) (row : Record α) : Record α :=
  ac.foldl (fun r kv => dictSet r kv.1 kv.2) row

/-- The transform applied to one record: removal (guarded by
`if remove_columns:`, line 169) then addition (guarded by
`if add_columns:`, line 175); an empty or absent list is falsy in Python,
so an empty spec skips its step. -/
def transformRecord {α : Type} (rc : List String) (ac : Record α)
    (row : Record α) : Record α :=
  let r1 := if rc.isEmpty then row else removeCols rc row
  if ac.isEmpty then r1 else addCols ac r1

/-- The transform step of `etl_processor` (lines 169-181) on the whole
dataset: list comprehension for removal, in-place loop for addition. -/
def transform {α : Type} (rc : List String) (ac : Record α)
    (data : List (Record α)) : List (Record α) :=
  let d1 := if rc.isEmpty then data else data.map (removeCols rc)
  if ac.isEmpty then d1 else d1.map (addCols ac)

/-- `load_csv` (lines 22-29): `csv.DictReader` takes the first row as the
header and turns each later row into a record pairing the header names
with the row fields in order.  The model works on rows of fields (the
lexing of commas and quotes belongs to the `csv` module, not this
repository); rows as long as the header — the well-formed case — are
zipped exactly as `DictReader` does. -/
def load_csv (rows : List (List String)) : List (Record String) :=
  match rows with
  | [] => []
  | header :: body => body.map (fun r => header.zip r)

/-- Outcome of `save_as_csv`: whether the "No data to write to CSV."
notice was printed, and the rows written to the output file, `none` when
no file was opened. -/
structure CsvSaveResult where
  notice : Bool
  file : Option (List (List String))
deriving DecidableEq

/-- `save_as_csv` (lines 43-55): empty data prints the notice and returns
before any file is opened; otherwise `csv.DictWriter` with
`fieldnames = data[0].keys()` writes the header row and then one row per
record, a missing key rendered as the default `restval` empty string. -/
def save_as_csv (data : List (Record String)) : CsvSaveResult :=
  match data with
  | [] => { notice := true, file := none }
  | d0 :: _ =>
      let keys := d0.map Prod.fst
      { notice := false
        file := some
          (keys :: data.map (fun row => keys.map (fun k => (dictGet row k).getD ""))) }

/-! Lemmas about `dictGet`, `dictSet` and `addCols`. -/

theorem dictGet_dictSet_self {α : Type} (row : Record α) (k : String) (v : α) :
    dictGet (dictSet row k v) k = some v := by
  induction row with
  | nil => simp [dictSet, dictGet]
  | cons kv rest ih =>
      by_cases h : kv.1 = k
      · simp [dictSet, h, dictGet]
      · simp [dictSet, h, dictGet, ih]

theorem dictGet_dictSet_ne {α : Type} (row : Record α) (k k' : String) (v : α)
    (h : k' ≠ k) : dictGet (dictSet row k v) k' = dictGet row k' := by
  induction row with
  | nil => simp [dictSet, dictGet, Ne.symm h]
  | cons kv rest ih =>
      by_cases hk : kv.1 = k
      · subst hk
        simp [dictSet, dictGet, Ne.symm h]
      · by_cases hk' : kv.1 = k'
        · simp [dictSet, dictGet, hk, hk', h]
        · simp [dictSet, dictGet, hk, hk', ih]

theorem dictGet_addCols_not_mem {α : Type} (ac : Record α) (row : Record α)
    (c : String) (h : c ∉ ac.map Prod.fst) :
    dictGet (addCols ac row) c = dictGet row c := by
  induction ac generalizing row with
  | nil => rfl
  | cons kv rest ih =>
      simp only [List.map_cons, List.mem_cons, not_or] at h
      show dictGet (addCols rest (dictSet row kv.1 kv.2)) c = dictGet row c
      rw [ih _ h.2, dictGet_dictSet_ne _ _ _ _ h.1]

theorem dictGet_addCols_mem {α : Type} (ac : Record α) (row : Record α)
    (c : String) (v : α) (hmem : (c, v) ∈ ac)
    (hnodup : (ac.map Prod.fst).Nodup) :
    dictGet (addCols ac row) c = some v := by
  induction ac generalizing row with
  | nil => cases hmem
  | cons kv rest ih =>
      simp only [List.map_cons, List.nodup_cons] at hnodup
      rcases List.mem_cons.mp hmem with heq | htail
      · subst heq
        show dictGet (addCols rest (dictSet row c v)) c = some v
        rw [dictGet_addCols_not_mem _ _ _ hnodup.1, dictGet_dictSet_self]
      · show dictGet (addCols rest (dictSet row kv.1 kv.2)) c = some v
        exact ih (dictSet row kv.1 kv.2) htail hnodup.2

theorem mapME_congr {ε α β : Type} (f g : α → Except ε β) (l : List α)
    (h : ∀ a ∈ l, f a = g a) : mapME f l = mapME g l := by
  induction l with
  | nil => rfl
  | cons a rest ih =>
      simp only [mapME, h a (List.mem_cons_self a rest),
        ih (fun b hb => h b (List.mem_cons_of_mem a hb))]

theorem mapME_nil {ε α β : Type} (f : α → Except ε β) :
    mapME f [] = Except.ok [] := rfl

theorem mapME_cons {ε α β : Type} (f : α → Except ε β) (a : α) (l : List α) :
    mapME f (a :: l) =
      match f a with
      | Except.error e => Except.error e
      | Except.ok b =>
          match mapME f l with
          | Except.error e => Except.error e
          | Except.ok bs => Except.ok (b :: bs) := rfl

theorem mapME_ok {ε α β : Type} (f : α → Except ε β) (l : List α)
    (h : ∀ a ∈ l, ∃ b, f a = Except.ok b) :
    ∃ bs, mapME f l = Except.ok bs := by
  induction l with
  | nil => exact ⟨[], rfl⟩
  | cons a rest ih =>
      obtain ⟨b, hb⟩ := h a (List.mem_cons_self a rest)
      obtain ⟨bs, hbs⟩ := ih (fun x hx => h x (List.mem_cons_of_mem a hx))
      exact ⟨b :: bs, by rw [mapME_cons, hb, hbs]⟩

theorem map_congr_fun {α β : Type} (f g : α → β) (l : List α)
    (h : ∀ a, f a = g a) : l.map f = l.map g := by
  induction l with
  | nil => rfl
  | cons a rest ih => simp [h, ih]

theorem map_fst_removeCols {α : Type} (rc : List String) (row : Record α) :
    (removeCols rc row).map Prod.fst =
      (row.map Prod.fst).filter (fun k => !(rc.contains k)) := by
  induction row with
  | nil => rfl
  | cons kv rest ih =>
      by_cases h : kv.1 ∈ rc <;> simp_all [removeCols, List.filter_cons]

theorem map_dictGet_zip (header : List String) (r : List String)
    (hnodup : header.Nodup) (hlen : r.length = header.length) :
    header.map (fun k => (dictGet (header.zip r) k).getD "") = r := by
  induction header generalizing r with
  | nil =>
      cases r with
      | nil => rfl
      | cons x xs => simp at hlen
  | cons h hs ih =>
      cases r with
      | nil => simp at hlen
      | cons x xs =>
          simp only [List.nodup_cons] at hnodup
          simp only [List.length_cons, Nat.succ_inj] at hlen
          simp only [List.zip_cons_cons, List.map_cons]
          have hhead : dictGet ((h, x) :: hs.zip xs) h = some x := by
            simp [dictGet]
          have htail :
              hs.map (fun k => (dictGet ((h, x) :: hs.zip xs) k).getD "") =
                hs.map (fun k => (dictGet (hs.zip xs) k).getD "") := by
            refine List.map_congr_left (fun k hk => ?_)
            have hne : h ≠ k := fun he => hnodup.1 (he ▸ hk)
            simp [dictGet, hne]
          rw [hhead, htail, ih xs hnodup.2 hlen]
          rfl

theorem dictGet_nth_key {α : Type} (row : Record α)
    (hnodup : (row.map Prod.fst).Nodup) (i : Nat) (hi : i < row.length) :
    dictGet row ((row.map Prod.fst).getD i "") = (row.map Prod.snd)[i]? := by
  induction row generalizing i with
  | nil => simp at hi
  | cons kv rest ih =>
      simp only [List.map_cons, List.nodup_cons] at hnodup
      cases i with
      | zero => simp [dictGet]
      | succ j =>
          simp only [List.length_cons, Nat.succ_lt_succ_iff] at hi
          have hkey : ((kv :: rest).map Prod.fst).getD (j + 1) "" =
              (rest.map Prod.fst).getD j "" := by
            simp [List.getD]
          have hmem : (rest.map Prod.fst).getD j "" ∈ rest.map Prod.fst := by
            have hj : j < (rest.map Prod.fst).length := by
              simpa using hi
            simp only [List.getD_eq_getElem?_getD, List.getElem?_eq_getElem hj,
              Option.getD_some]
            exact List.getElem_mem hj
          have hne : kv.1 ≠ (rest.map Prod.fst).getD j "" :=
            fun he => hnodup.1 (he ▸ hmem)
          rw [hkey]
          simp only [dictGet, if_neg hne, List.map_cons, List.getElem?_cons_succ]
          exact ih hnodup.2 j hi

end Project

namespace Project

/-- C1: the worked example of the spec.  Removal of "b" and addition of
`tag = "x"` on the two-record dataset yields exactly the expected
dataset, new column appended after the surviving one. -/
theorem transform_example :
    transform ["b"] [("tag", "x")]
      [[("a", "1"), ("b", "2")], [("a", "3"), ("b", "4")]] =
      [[("a", "1"), ("tag", "x")], [("a", "3"), ("tag", "x")]] := by
  decide

/-- C2: when a column name `c` appears both in the removal list and in
the addition mapping (with value `v`), every record of the transformed
dataset binds `c` to `v`: removal runs first (line 169-171) and addition
(lines 175-179) then installs the constant value on every record. -/
theorem transform_readded_column (rc : List String) (ac : Record String)
    (data : List (Record String)) (c : String) (v : String)
    (hrc : c ∈ rc) (hac : (c, v) ∈ ac)
    (hnodup : (ac.map Prod.fst).Nodup) :
    ∀ row ∈ transform rc ac data, dictGet row c = some v := by
  intro row hrow
  have hrcne : rc.isEmpty = false :=
    List.isEmpty_eq_false.mpr (List.ne_nil_of_mem hrc)
  have hacne : ac.isEmpty = false :=
    List.isEmpty_eq_false.mpr (List.ne_nil_of_mem hac)
  simp only [transform, hrcne, hacne, Bool.false_eq_true, if_false,
    List.mem_map] at hrow
  obtain ⟨r1, _, hr1⟩ := hrow
  subst hr1
  exact dictGet_addCols_mem ac r1 c v hac hnodup

/-- Witness for C2 at a concrete input: removing and re-adding column
"b" leaves every record with the added constant. -/
theorem transform_readded_column_witness :
    dictGet [("b", "z")] "b" = some "z" :=
  transform_readded_column ["b"] [("b", "z")] [[("b", "1")]] "b" "z"
    (by decide) (by decide) (by decide) [("b", "z")] (by decide)

/-- C8: on a record with no duplicate keys (every Python dict), the
removal comprehension of line 171 never raises: every iterated key comes
from the record itself, so each `row[key]` succeeds, and the result keeps
exactly the entries whose key is not in the removal list.  Hence the
`KeyError` handler of lines 172-173 is unreachable. -/
theorem removeCols_never_fails {α : Type} (rc : List String) (row : Record α)
    (hnodup : (row.map Prod.fst).Nodup) :
    removeColsChecked rc row = Except.ok (removeCols rc row) ∧
      (removeCols rc row).map Prod.fst =
        (row.map Prod.fst).filter (fun k => !(rc.contains k)) := by
  refine ⟨?_, map_fst_removeCols rc row⟩
  induction row with
  | nil => rfl
  | cons kv rest ih =>
      simp only [List.map_cons, List.nodup_cons] at hnodup
      have hcongr :
          mapME
            (fun k =>
              match dictGet (kv :: rest) k with
              | some v => Except.ok (k, v)
              | none => Except.error PyErr.keyError)
            ((rest.map Prod.fst).filter (fun k => !(rc.contains k))) =
          mapME
            (fun k =>
              match dictGet rest k with
              | some v => Except.ok (k, v)
              | none => Except.error PyErr.keyError)
            ((rest.map Prod.fst).filter (fun k => !(rc.contains k))) := by
        refine mapME_congr _ _ _ (fun k hk => ?_)
        have hkmem : k ∈ rest.map Prod.fst := List.mem_of_mem_filter hk
        have hne : kv.1 ≠ k := fun he => hnodup.1 (he ▸ hkmem)
        simp [dictGet, hne]
      have htail :
          mapME
            (fun k =>
              match dictGet (kv :: rest) k with
              | some v => Except.ok (k, v)
              | none => Except.error PyErr.keyError)
            ((rest.map Prod.fst).filter (fun k => !(rc.contains k))) =
            Except.ok (removeCols rc rest) := by
        rw [hcongr]
        exact ih hnodup.2
      by_cases h : kv.1 ∈ rc
      · have h1 : removeColsChecked rc (kv :: rest) =
            mapME
              (fun k =>
                match dictGet (kv :: rest) k with
                | some v => Except.ok (k, v)
                | none => Except.error PyErr.keyError)
              ((rest.map Prod.fst).filter (fun k => !(rc.contains k))) := by
          simp [removeColsChecked, List.filter_cons, h]
        have h2 : removeCols rc (kv :: rest) = removeCols rc rest := by
          simp [removeCols, List.filter_cons, h]
        rw [h1, htail, h2]
      · have h1 : removeColsChecked rc (kv :: rest) =
            mapME
              (fun k =>
                match dictGet (kv :: rest) k with
                | some v => Except.ok (k, v)
                | none => Except.error PyErr.keyError)
              (kv.1 :: (rest.map Prod.fst).filter (fun k => !(rc.contains k))) := by
          simp [removeColsChecked, List.filter_cons, h]
        have h2 : removeCols rc (kv :: rest) = kv :: removeCols rc rest := by
          simp [removeCols, List.filter_cons, h]
        have hget : dictGet (kv :: rest) kv.1 = some kv.2 := by
          simp [dictGet]
        rw [h1, h2, mapME_cons]
        simp only [hget, htail, Prod.mk.eta]

/-- Witness for C8 at a concrete input: the removal list names a key the
record lacks, and removal still succeeds, keeping the other key. -/
theorem removeCols_never_fails_witness :
    removeColsChecked ["b", "c"] [("a", "1")] =
        Except.ok (removeCols ["b", "c"] [("a", "1")]) ∧
      (removeCols ["b", "c"] ([("a", "1")] : Record String)).map Prod.fst =
        (([("a", "1")] : Record String).map Prod.fst).filter
          (fun k => !((["b", "c"] : List String).contains k)) :=
  removeCols_never_fails ["b", "c"] [("a", "1")] (by decide)

/-- C10: the transform step is a per-record map — the output dataset has
exactly as many records as the input, the i-th output record being the
transform of the i-th input record. -/
theorem transform_eq_map {α : Type} (rc : List String) (ac : Record α)
    (data : List (Record α)) :
    transform rc ac data = data.map (transformRecord rc ac) ∧
      (transform rc ac data).length = data.length := by
  have h : transform rc ac data = data.map (transformRecord rc ac) := by
    by_cases hrc : rc.isEmpty <;> by_cases hac : ac.isEmpty
    · rw [map_congr_fun (transformRecord rc ac) (fun row => row) data
        (fun row => by simp [transformRecord, hrc, hac])]
      simp [transform, hrc, hac]
    · rw [map_congr_fun (transformRecord rc ac) (fun row => addCols ac row) data
        (fun row => by simp [transformRecord, hrc, hac])]
      simp [transform, hrc, hac]
    · rw [map_congr_fun (transformRecord rc ac) (fun row => removeCols rc row) data
        (fun row => by simp [transformRecord, hrc, hac])]
      simp [transform, hrc, hac]
    · rw [map_congr_fun (transformRecord rc ac)
        (fun row => addCols ac (removeCols rc row)) data
        (fun row => by simp [transformRecord, hrc, hac])]
      simp [transform, hrc, hac, Function.comp]
  exact ⟨h, by rw [h, List.length_map]⟩

/-- C6: saving the empty dataset as CSV prints the "No data to write to
CSV." notice and opens no file: the `len(data) == 0` guard of line 45
returns before the `open` of line 49. -/
theorem save_as_csv_empty :
    save_as_csv [] = { notice := true, file := none } := rfl

/-- C3: a well-formed CSV input — a header of distinct column names
followed by at least one data row, every data row as long as the header —
loaded by `load_csv` and saved again by `save_as_csv` yields exactly the
original rows: the first record keeps the header keys in order, so the
written header and every written row reproduce the input. -/
theorem csv_roundtrip (header : List String) (body : List (List String))
    (hnodup : header.Nodup) (hlen : ∀ r ∈ body, r.length = header.length)
    (hne : body ≠ []) :
    save_as_csv (load_csv (header :: body)) =
      { notice := false, file := some (header :: body) } := by
  cases body with
  | nil => exact absurd rfl hne
  | cons b bs =>
      have hb : b.length = header.length := hlen b (List.mem_cons_self b bs)
      have hkeys : (header.zip b).map Prod.fst = header :=
        List.map_fst_zip header b (le_of_eq hb.symm)
      have hfile : ((header.zip b) :: bs.map (fun r => header.zip r)).map
            (fun row => header.map fun k => (dictGet row k).getD "") = b :: bs := by
        simp only [List.map_cons, List.map_map]
        rw [map_dictGet_zip header b hnodup hb]
        congr 1
        have hpt : ∀ r ∈ bs,
            ((fun row => header.map fun k => (dictGet row k).getD "") ∘
              (fun r => header.zip r)) r = (fun r => r) r := fun r hr =>
          map_dictGet_zip header r hnodup (hlen r (List.mem_cons_of_mem b hr))
        rw [List.map_congr_left hpt, List.map_id']
      show save_as_csv ((header.zip b) :: bs.map (fun r => header.zip r)) = _
      simp only [save_as_csv]
      rw [hkeys, hfile]

/-- Witness for C3 at a concrete input: a two-column CSV with one data
row round-trips unchanged. -/
theorem csv_roundtrip_witness :
    save_as_csv (load_csv [["a", "b"], ["1", "2"]]) =
      { notice := false, file := some [["a", "b"], ["1", "2"]] } :=
  csv_roundtrip ["a", "b"] [["1", "2"]] (by decide) (by decide) (by decide)

/-- C4 as stated is false: with first record `a=1, b=2` and second record
written in the order `b=3, a=4`, the second INSERT binds "3" to the first
placeholder, while the first column of the table is "a" and the value the
key "a" selects from that record is "4" — the values are silently
misaligned, not matched to the first record's key order. -/
theorem save_to_sqlite_misaligned :
    save_to_sqlite [[("a", "1"), ("b", "2")], [("b", "3"), ("a", "4")]] =
        some { columns := ["a", "b"], rows := [["1", "2"], ["3", "4"]] } ∧
      (["3", "4"] : List String).getD 0 "" = "3" ∧
      dictGet ([("b", "3"), ("a", "4")] : Record String)
          ((["a", "b"] : List String).getD 0 "") = some "4" ∧
      ("3" : String) ≠ "4" := by
  decide

/-- C4 amended: the persister inserts one row per record holding that
record's own values in the record's own key order; only for a record
whose key sequence equals the first record's does the i-th stored value
equal the value the first record's i-th key selects from it. -/
theorem save_to_sqlite_rows (data : List (Record String)) (d0 : Record String)
    (rest : List (Record String)) (hdata : data = d0 :: rest) :
    save_to_sqlite data =
        some { columns := d0.map Prod.fst
               rows := data.map (fun r => r.map Prod.snd) } ∧
      ∀ r ∈ data, r.map Prod.fst = d0.map Prod.fst →
        (r.map Prod.fst).Nodup →
          ∀ i, i < r.length →
            dictGet r ((d0.map Prod.fst).getD i "") = (r.map Prod.snd)[i]? := by
  subst hdata
  refine ⟨rfl, ?_⟩
  intro r _ hkeys hnodup i hi
  rw [← hkeys]
  exact dictGet_nth_key r hnodup i hi

/-- Witness for the amended C4 at a concrete input whose records share
the key order of the first record. -/
theorem save_to_sqlite_rows_witness :
    dictGet ([("a", "1"), ("b", "2")] : Record String)
        ((([("a", "9"), ("b", "8")] : Record String).map Prod.fst).getD 1 "") =
      (([("a", "1"), ("b", "2")] : Record String).map Prod.snd)[1]? :=
  (save_to_sqlite_rows [[("a", "9"), ("b", "8")], [("a", "1"), ("b", "2")]]
      [("a", "9"), ("b", "8")] [[("a", "1"), ("b", "2")]] rfl).2
    [("a", "1"), ("b", "2")] (by decide) (by decide) (by decide) 1 (by decide)

/-- C5: when the stripped, lowercased output selector is none of csv,
json or sqlite, steps 5 and 6 do not run — no persister is invoked, no
destination is filled in, and the post-processing summary is skipped; the
only effect is the "Unsupported output format." message. -/
theorem output_step_unsupported (rawChoice : String) (dest : Option String)
    (h : pyLower (pyStrip rawChoice) ∉ (["csv", "json", "sqlite"] : List String)) :
    output_step rawChoice dest = [SinkEffect.printedUnsupported] := by
  have h1 : pyLower (pyStrip rawChoice) ≠ "csv" := fun he => h (by simp [he])
  have h2 : pyLower (pyStrip rawChoice) ≠ "json" := fun he => h (by simp [he])
  have h3 : pyLower (pyStrip rawChoice) ≠ "sqlite" := fun he => h (by simp [he])
  simp [output_step, h1, h2, h3]

/-- Witness for C5: the selector "xml" aborts with only the unsupported
message. -/
theorem output_step_unsupported_witness :
    output_step "xml" none = [SinkEffect.printedUnsupported] :=
  output_step_unsupported "xml" none (by decide)

/-- C9: with `is_api` false, any input source whose text starts with
"http" is dispatched to the remote-download branch and never to the
local-file branch, whatever else the string looks like. -/
theorem source_branch_http (s : String) (h : pyStartsWith s "http" = true) :
    source_branch s false = SourceBranch.remoteUrl ∧
      source_branch s false ≠ SourceBranch.localFile := by
  simp [source_branch, h]

/-- Witness for C9: the perfectly valid local file name "httpdata.csv"
still goes to the remote branch. -/
theorem source_branch_http_witness :
    source_branch "httpdata.csv" false = SourceBranch.remoteUrl ∧
      source_branch "httpdata.csv" false ≠ SourceBranch.localFile :=
  source_branch_http "httpdata.csv" (by decide)

/-- C7 as stated is false: `load_json` can hand the summarizer a
dict-shaped dataset (a JSON file whose top level is an object).  Such a
value is neither None nor of length zero, so the function reaches
`data[0]`, and subscripting a string-keyed dict with the int key 0
raises KeyError — the summarizer raises. -/
theorem print_summary_raises :
    print_summary (PyValue.dict [("x", PyValue.str "1")])
        "Pre-Processing Data Summary" =
      Except.error PyErr.keyError := rfl

/-- C7 amended: the summarizer reports "no data available" and stops for
an absent dataset and for a zero-record one, and it never raises on any
dataset that is a sequence of records — a list whose elements are all
dicts, of any key sets and value shapes; only non-sequence datasets
(e.g. a dict or a number) can make it raise. -/
theorem print_summary_no_raise (t : String) (rows : List PyValue)
    (h : ∀ r ∈ rows, isDictVal r = true) :
    print_summary PyValue.none t = Except.ok [SummaryLine.noData t] ∧
      print_summary (PyValue.list []) t = Except.ok [SummaryLine.noData t] ∧
      (print_summary (PyValue.list rows) t).isOk = true := by
  refine ⟨rfl, rfl, ?_⟩
  cases rows with
  | nil => rfl
  | cons r rs =>
      have hr : isDictVal r = true := h r (List.mem_cons_self r rs)
      obtain ⟨d, rfl⟩ : ∃ d, r = PyValue.dict d := by
        cases r with
        | dict d => exact ⟨d, rfl⟩
        | none => simp [isDictVal] at hr
        | str s => simp [isDictVal] at hr
        | int n => simp [isDictVal] at hr
        | list l => simp [isDictVal] at hr
      have hmc : ∀ col ∈ d.map Prod.fst,
          ∃ c, missingCount (PyValue.dict d :: rs) col = Except.ok c := by
        intro col _
        have hget : ∀ row ∈ PyValue.dict d :: rs,
            ∃ v, pyDictGetMethod row col = Except.ok v := by
          intro row hrow
          have hrow' : isDictVal row = true := h row hrow
          cases row with
          | dict d2 => exact ⟨(dictGet d2 col).getD PyValue.none, rfl⟩
          | none => simp [isDictVal] at hrow'
          | str s => simp [isDictVal] at hrow'
          | int n => simp [isDictVal] at hrow'
          | list l => simp [isDictVal] at hrow'
        obtain ⟨vs, hvs⟩ :=
          mapME_ok (fun row => pyDictGetMethod row col) (PyValue.dict d :: rs) hget
        exact ⟨(vs.filter isMissingVal).length, by rw [missingCount, hvs]⟩
      obtain ⟨ms, hms⟩ := mapME_ok (missingCount (PyValue.dict d :: rs)) _ hmc
      simp only [print_summary, isNoneVal, pyLen, pyGetItem0, pyKeys, pyItems,
        pySample, pyIterate, List.length_cons, Nat.succ_ne_zero, if_false,
        Bool.false_eq_true, hms]
      rfl

/-- Witness for the amended C7 at a concrete two-record dataset with a
missing and an empty value. -/
theorem print_summary_no_raise_witness :
    (print_summary
        (PyValue.list [PyValue.dict [("a", PyValue.str "")],
          PyValue.dict [("b", PyValue.none)]]) "T").isOk = true :=
  (print_summary_no_raise "T"
      [PyValue.dict [("a", PyValue.str "")], PyValue.dict [("b", PyValue.none)]]
      (by decide)).2.2

end Project
